import Mathlib

/-!
Verification development for the stm32_3d_scanner repository.

Part 1 models `SensorManager.get_next_sample` (src/sensor_manager.py,
live-serial branch, lines 64-121): UTF-8 decoding of the incoming bytes,
the persistent text buffer, the packet-extraction loop, numeric parsing
of the payload tokens, unit conversion, and the 1000-character overflow
guard.  Strings are modelled as `List Char`, Python floats as `ℚ` (the
parsed values are exact decimals, so rational arithmetic is faithful).

Part 2 (further below) models `Dashboard.update` (src/dashboard.py,
lines 129-228) over `ℝ`.
-/

/-- Model of Python `str.find` restricted to a single character:
`some i` is the first index of `c`, `none` plays the role of `-1`. -/
def findChar (c : Char) : List Char → Option Nat
  | [] => none
  | x :: xs => if x = c then some 0 else (findChar c xs).map (fun i => i + 1)

/-- Model of Python `str.split(' ')` (line 89): split on every single
space, keeping empty fragments between consecutive separators.  The
first argument accumulates the current fragment in reverse. -/
def splitSp : List Char → List Char → List (List Char)
  | [], cur => [cur.reverse]
  | c :: cs, cur => if c = ' ' then cur.reverse :: splitSp cs [] else splitSp cs (c :: cur)

/-- Lines 89-90: tokenize the payload on single spaces and filter empty
tokens (`[p for p in parts if p]`). -/
def splitTokens (p : List Char) : List (List Char) :=
  (splitSp p []).filter (fun t => t ≠ [])

def digitVal (c : Char) : Nat := c.toNat - 48

/-- Consume a maximal run of decimal digits, returning their values and
the remaining characters. -/
def takeDigits : List Char → List Nat × List Char
  | [] => ([], [])
  | c :: cs =>
    if c.isDigit then
      let r := takeDigits cs
      (digitVal c :: r.1, r.2)
    else ([], c :: cs)

def digitsToNat (ds : List Nat) : Nat := ds.foldl (fun a d => 10 * a + d) 0

/-- Optional leading sign: the sign as `1` or `-1` plus the rest. -/
def readSign : List Char → ℤ × List Char
  | '-' :: cs => (-1, cs)
  | '+' :: cs => (1, cs)
  | cs => (1, cs)

/-- Optional exponent suffix of a float literal: given the already-parsed
mantissa, accept the empty rest or an exponent marker with signed digits. -/
def parseExp (m : ℚ) : List Char → Option ℚ
  | [] => some m
  | c :: cs =>
    if c = 'e' ∨ c = 'E' then
      let s := readSign cs
      let r := takeDigits s.2
      if r.1 = [] ∨ r.2 ≠ [] then none
      else some (m * (10 : ℚ) ^ (s.1 * (digitsToNat r.1 : ℤ)))
    else none

/-- Model of Python `float(token)` (lines 95 and 99) on the space-free
tokens produced by `splitTokens`: optional sign, decimal digits with an
optional fractional part, optional exponent.  Returns `none` exactly when
Python raises `ValueError` on such a token. -/
def parseNum (t : List Char) : Option ℚ :=
  let s1 := readSign t
  let sgn : ℚ := (s1.1 : ℚ)
  let r1 := takeDigits s1.2
  match r1.2 with
  | '.' :: cs =>
    let r2 := takeDigits cs
    if r1.1 = [] ∧ r2.1 = [] then none
    else parseExp (sgn * ((digitsToNat r1.1 : ℚ) + (digitsToNat r2.1 : ℚ) / 10 ^ r2.1.length)) r2.2
  | rest =>
    if r1.1 = [] then none
    else parseExp (sgn * (digitsToNat r1.1 : ℚ)) rest

/-- Model of the list comprehension `[float(x) for x in parts]`:
`none` models the `ValueError` raised by the first bad token. -/
def floatList : List (List Char) → Option (List ℚ)
  | [] => some []
  | t :: ts =>
    match parseNum t, floatList ts with
    | some v, some vs => some (v :: vs)
    | _, _ => none

/-- Conversion constant of line 6: milli-g to m/s². -/
def MG_TO_MS2 : ℚ := 9.80665 / 1000

/-- Conversion constant of line 7: milli-degrees-per-second to deg/s. -/
def MDPS_TO_DPS : ℚ := 1 / 1000

/-- Lines 88-100: tokenize a payload and build the raw 9-element record,
zero-filling the magnetometer in the 6-token case; `none` for any other
token count or any token `float` rejects. -/
def parsePacket (p : List Char) : Option (List ℚ) :=
  let parts := splitTokens p
  if parts.length = 6 then
    match floatList parts with
    | some d => some (d ++ [0, 0, 0])
    | none => none
  else if parts.length = 9 then floatList parts
  else none

/-- Lines 103-104: `packet_data[0:3] *= MG_TO_MS2; packet_data[3:6] *= MDPS_TO_DPS`. -/
def convertSample (d : List ℚ) : List ℚ :=
  (d.take 3).map (fun x => x * MG_TO_MS2) ++
    ((d.drop 3).take 3).map (fun x => x * MDPS_TO_DPS) ++ d.drop 6

/-- Lines 88-105 as one step: parse a payload and convert it to SI units. -/
def parseConvert (p : List Char) : Option (List ℚ) :=
  match parsePacket p with
  | some d => some (convertSample d)
  | none => none

/-- The `while True` loop of lines 75-110, with explicit fuel.  Each
iteration either resynchronizes past an orphan end marker (lines 80-82),
extracts one delimited packet (lines 84-108), or breaks.  Every
continuing iteration drops at least one character, so `buf.length` fuel
always suffices (`frameLoopF_fuel`). -/
def frameLoopF : Nat → List Char → Option (List ℚ) → Option (List ℚ) × List Char
  | 0, buf, last => (last, buf)
  | fuel + 1, buf, last =>
    match findChar '$' buf, findChar ';' buf with
    | some s, some e =>
      if e < s then frameLoopF fuel (buf.drop (e + 1)) last
      else
        frameLoopF fuel (buf.drop (e + 1))
          (match parseConvert ((buf.drop (s + 1)).take (e - s - 1)) with
           | some v => some v
           | none => last)
    | _, _ => (last, buf)

/-- The packet-extraction loop of `get_next_sample`: starting accumulator
`last`, returns the final `last_valid_packet` and the remaining buffer. -/
def frameLoop (buf : List Char) (last : Option (List ℚ)) : Option (List ℚ) × List Char :=
  frameLoopF buf.length buf last

/-- Lines 73-115: run the loop with `last_valid_packet = None`, then the
overflow guard of lines 112-113 (`if len(self.buffer) > 1000: self.buffer = ""`). -/
def processBuffer (buf : List Char) : Option (List ℚ) × List Char :=
  let r := frameLoop buf none
  if 1000 < r.2.length then (r.1, []) else r

/-- Fuel-indexed UTF-8 decoder with CPython's `errors='ignore'` handler:
undecodable bytes are skipped instead of raising; surrogates and
overlong encodings are rejected (skipped).  Every step consumes at least
one byte, so `bs.length` fuel always suffices. -/
def utf8DecodeIgnoreF : Nat → List Nat → List Char
  | 0, _ => []
  | _ + 1, [] => []
  | fuel + 1, b :: bs =>
    if b < 128 then Char.ofNat b :: utf8DecodeIgnoreF fuel bs
    else if 194 ≤ b ∧ b ≤ 223 then
      match bs with
      | b2 :: bs2 =>
        if 128 ≤ b2 ∧ b2 ≤ 191 then
          Char.ofNat ((b - 192) * 64 + (b2 - 128)) :: utf8DecodeIgnoreF fuel bs2
        else utf8DecodeIgnoreF fuel bs
      | [] => []
    else if 224 ≤ b ∧ b ≤ 239 then
      match bs with
      | b2 :: b3 :: bs3 =>
        if (128 ≤ b2 ∧ b2 ≤ 191) ∧ (128 ≤ b3 ∧ b3 ≤ 191) ∧
            (b = 224 → 160 ≤ b2) ∧ (b = 237 → b2 ≤ 159) then
          Char.ofNat ((b - 224) * 4096 + (b2 - 128) * 64 + (b3 - 128)) ::
            utf8DecodeIgnoreF fuel bs3
        else utf8DecodeIgnoreF fuel bs
      | _ => utf8DecodeIgnoreF fuel bs
    else if 240 ≤ b ∧ b ≤ 244 then
      match bs with
      | b2 :: b3 :: b4 :: bs4 =>
        if (128 ≤ b2 ∧ b2 ≤ 191) ∧ (128 ≤ b3 ∧ b3 ≤ 191) ∧ (128 ≤ b4 ∧ b4 ≤ 191) ∧
            (b = 240 → 144 ≤ b2) ∧ (b = 244 → b2 ≤ 143) then
          Char.ofNat ((b - 240) * 262144 + (b2 - 128) * 4096 + (b3 - 128) * 64 + (b4 - 128)) ::
            utf8DecodeIgnoreF fuel bs4
        else utf8DecodeIgnoreF fuel bs
      | _ => utf8DecodeIgnoreF fuel bs
    else utf8DecodeIgnoreF fuel bs

/-- Model of `raw_data.decode('utf-8', errors='ignore')` (line 69).
Bytes are `Nat`s in `[0, 255]`. -/
def utf8DecodeIgnore (bs : List Nat) : List Char :=
  utf8DecodeIgnoreF bs.length bs

/-- One call of `SensorManager.get_next_sample` in live mode with data
waiting (lines 64-115): decode the raw bytes, append to the persistent
buffer (line 70), then run the extraction loop and the overflow guard.
Returns the optional sample and the new buffer contents. -/
def get_next_sample (buffer : List Char) (raw : List Nat) : Option (List ℚ) × List Char :=
  processBuffer (buffer ++ utf8DecodeIgnore raw)

/-! ### Lemmas about the framer -/

theorem findChar_lt {c : Char} : ∀ {l : List Char} {i : Nat}, findChar c l = some i → i < l.length := by
  intro l
  induction l with
  | nil => intro i h; simp [findChar] at h
  | cons x xs ih =>
    intro i h
    by_cases hx : x = c
    · simp [findChar, hx] at h
      simp only [List.length_cons]
      omega
    · simp [findChar, hx] at h
      obtain ⟨j, hj, rfl⟩ := h
      have := ih hj
      simp only [List.length_cons]
      omega

theorem findChar_none {c : Char} : ∀ {l : List Char}, c ∉ l → findChar c l = none := by
  intro l
  induction l with
  | nil => intro _; rfl
  | cons x xs ih =>
    intro h
    have hx : x ≠ c := fun he => h (he ▸ List.mem_cons_self x xs)
    have hm : c ∉ xs := fun hc => h (List.mem_cons_of_mem x hc)
    simp [findChar, hx, ih hm]

theorem findChar_before {c : Char} :
    ∀ {l : List Char} (r : List Char), c ∉ l → findChar c (l ++ c :: r) = some l.length := by
  intro l
  induction l with
  | nil => intro r _; simp [findChar]
  | cons x xs ih =>
    intro r h
    have hx : x ≠ c := fun he => h (he ▸ List.mem_cons_self x xs)
    have hm : c ∉ xs := fun hc => h (List.mem_cons_of_mem x hc)
    simp [findChar, hx, ih r hm]

theorem findChar_append {c : Char} :
    ∀ {l : List Char} (r : List Char), c ∉ l →
      findChar c (l ++ r) = (findChar c r).map (fun i => l.length + i) := by
  intro l
  induction l with
  | nil => intro r _; simp [Option.map_id]
  | cons x xs ih =>
    intro r h
    have hx : ¬ x = c := fun he => h (he ▸ List.mem_cons_self x xs)
    have hm : c ∉ xs := fun hc => h (List.mem_cons_of_mem x hc)
    show findChar c (x :: (xs ++ r)) = _
    rw [findChar, if_neg hx, ih r hm]
    cases findChar c r with
    | none => simp
    | some k =>
      simp only [Option.map_some', List.length_cons]
      congr 1
      omega

theorem findChar_of_mem {c : Char} : ∀ {l : List Char}, c ∈ l → ∃ k, findChar c l = some k := by
  intro l
  induction l with
  | nil => intro h; simp at h
  | cons x xs ih =>
    intro h
    by_cases hx : x = c
    · exact ⟨0, by simp [findChar, hx]⟩
    · have hm : c ∈ xs := by
        rcases List.mem_cons.mp h with h1 | h1
        · exact absurd h1.symm hx
        · exact h1
      obtain ⟨k, hk⟩ := ih hm
      exact ⟨k + 1, by simp [findChar, hx, hk]⟩

theorem frameLoopF_fuel :
    ∀ (f1 f2 : Nat) (buf : List Char) (last : Option (List ℚ)),
      buf.length ≤ f1 → buf.length ≤ f2 → frameLoopF f1 buf last = frameLoopF f2 buf last := by
  intro f1
  induction f1 with
  | zero =>
    intro f2 buf last h1 h2
    have hb : buf = [] := List.eq_nil_of_length_eq_zero (Nat.le_zero.mp h1)
    subst hb
    cases f2 with
    | zero => rfl
    | succ b => simp [frameLoopF, findChar]
  | succ a ih =>
    intro f2 buf last h1 h2
    cases f2 with
    | zero =>
      have hb : buf = [] := List.eq_nil_of_length_eq_zero (Nat.le_zero.mp h2)
      subst hb
      simp [frameLoopF, findChar]
    | succ b =>
      simp only [frameLoopF]
      cases hs : findChar '$' buf with
      | none => rfl
      | some s =>
        cases he : findChar ';' buf with
        | none => rfl
        | some e =>
          have helt : e < buf.length := findChar_lt he
          have hlen : (buf.drop (e + 1)).length ≤ a := by
            simp [List.length_drop]; omega
          have hlen2 : (buf.drop (e + 1)).length ≤ b := by
            simp [List.length_drop]; omega
          by_cases hc : e < s
          · simp only [if_pos hc]
            exact ih b (buf.drop (e + 1)) last hlen hlen2
          · simp only [if_neg hc]
            exact ih b (buf.drop (e + 1)) _ hlen hlen2

theorem frameLoop_pair {buf : List Char} {last : Option (List ℚ)} {s e : Nat}
    (hs : findChar '$' buf = some s) (he : findChar ';' buf = some e) :
    frameLoop buf last =
      if e < s then frameLoop (buf.drop (e + 1)) last
      else
        frameLoop (buf.drop (e + 1))
          (match parseConvert ((buf.drop (s + 1)).take (e - s - 1)) with
           | some v => some v
           | none => last) := by
  have helt : e < buf.length := findChar_lt he
  obtain ⟨x, xs, hb⟩ : ∃ x xs, buf = x :: xs := by
    cases buf with
    | nil => simp at helt
    | cons x xs => exact ⟨x, xs, rfl⟩
  subst hb
  show frameLoopF (xs.length + 1) (x :: xs) last = _
  simp only [frameLoopF, hs, he]
  have hdl : ((x :: xs).drop (e + 1)).length ≤ xs.length := by
    simp [List.length_drop]
  by_cases hc : e < s
  · simp only [if_pos hc]
    exact frameLoopF_fuel xs.length _ _ last hdl (le_refl _)
  · simp only [if_neg hc]
    exact frameLoopF_fuel xs.length _ _ _ hdl (le_refl _)

theorem frameLoop_nopair {buf : List Char} {last : Option (List ℚ)}
    (h : findChar '$' buf = none ∨ findChar ';' buf = none) :
    frameLoop buf last = (last, buf) := by
  cases buf with
  | nil => rfl
  | cons x xs =>
    show frameLoopF (xs.length + 1) (x :: xs) last = _
    rcases h with h | h
    · simp only [frameLoopF, h]
    · simp only [frameLoopF, h]
      cases findChar '$' (x :: xs) <;> rfl

/-- One packet-extraction step of the loop: a leading well-delimited
packet whose payload holds no delimiter characters is consumed, and
`last_valid_packet` is updated when parsing succeeds. -/
theorem frameLoop_extract (p rest : List Char) (last : Option (List ℚ))
    (h1 : '$' ∉ p) (h2 : ';' ∉ p) :
    frameLoop ('$' :: p ++ ';' :: rest) last =
      frameLoop rest
        (match parseConvert p with
         | some v => some v
         | none => last) := by
  have hs : findChar '$' ('$' :: p ++ ';' :: rest) = some 0 := by
    simp [findChar]
  have he : findChar ';' ('$' :: p ++ ';' :: rest) = some (p.length + 1) := by
    have : ';' ∉ '$' :: p := by
      intro h
      rcases List.mem_cons.mp h with h | h
      · exact absurd h.symm (by decide)
      · exact h2 h
    have := findChar_before (l := '$' :: p) rest this
    simpa using this
  rw [frameLoop_pair hs he]
  have hnlt : ¬ p.length + 1 < 0 := by omega
  rw [if_neg hnlt]
  have hdrop : ('$' :: p ++ ';' :: rest).drop (p.length + 1 + 1) = rest := by
    have : '$' :: p ++ ';' :: rest = ('$' :: p ++ [';']) ++ rest := by simp
    rw [this]
    have hlen : ('$' :: p ++ [';']).length = p.length + 1 + 1 := by simp
    rw [← hlen, List.drop_left]
  have htake : (('$' :: p ++ ';' :: rest).drop (0 + 1)).take (p.length + 1 - 0 - 1) = p := by
    have h0 : ('$' :: p ++ ';' :: rest).drop (0 + 1) = p ++ ';' :: rest := by simp
    have hn : p.length + 1 - 0 - 1 = p.length := by omega
    rw [h0, hn]
    exact List.take_left p (';' :: rest)
  rw [hdrop, htake]

/-- The resynchronization step of lines 80-82: when an end marker comes
first and a start marker exists later, the prefix through the end marker
is discarded and the loop retries. -/
theorem frameLoop_resync (pre rest : List Char) (last : Option (List ℚ))
    (h1 : ';' ∉ pre) (h2 : '$' ∉ pre) (h3 : '$' ∈ rest) :
    frameLoop (pre ++ ';' :: rest) last = frameLoop rest last := by
  have he : findChar ';' (pre ++ ';' :: rest) = some pre.length :=
    findChar_before rest h1
  obtain ⟨k, hk⟩ := findChar_of_mem h3
  have hs : findChar '$' (pre ++ ';' :: rest) = some (pre.length + 1 + k) := by
    have hnm : '$' ∉ pre ++ [';'] := by
      intro h
      rcases List.mem_append.mp h with h | h
      · exact h2 h
      · simp at h
    have heq : pre ++ ';' :: rest = (pre ++ [';']) ++ rest := by simp
    rw [heq, findChar_append rest hnm, hk]
    simp only [Option.map_some', List.length_append, List.length_cons, List.length_nil]
  rw [frameLoop_pair hs he]
  rw [if_pos (by omega)]
  congr 1
  have : pre ++ ';' :: rest = (pre ++ [';']) ++ rest := by simp
  rw [this]
  have hlen : (pre ++ [';']).length = pre.length + 1 := by simp
  rw [← hlen, List.drop_left]

/-- The overflow guard keeps the retained buffer at 1000 characters or
fewer after every call. -/
theorem processBuffer_len (buf : List Char) : (processBuffer buf).2.length ≤ 1000 := by
  unfold processBuffer
  by_cases h : 1000 < (frameLoop buf none).2.length
  · simp [h]
  · simp [h]
    omega

theorem floatList_length :
    ∀ {ts : List (List Char)} {vs : List ℚ}, floatList ts = some vs → vs.length = ts.length := by
  intro ts
  induction ts with
  | nil => intro vs h; simp [floatList] at h; simp [← h]
  | cons t ts ih =>
    intro vs h
    simp only [floatList] at h
    cases hp : parseNum t with
    | none => rw [hp] at h; simp at h
    | some v =>
      rw [hp] at h
      cases hf : floatList ts with
      | none => rw [hf] at h; simp at h
      | some ws =>
        rw [hf] at h
        simp at h
        subst h
        simp [ih hf]

/-- A buffer holding the packets of `ps` back to back, each framed as
`$payload;`. -/
def mkPackets (ps : List (List Char)) : List Char :=
  ps.foldr (fun p acc => '$' :: p ++ ';' :: acc) []

/-- Running the loop over back-to-back framed packets folds the
`last_valid_packet` update over all of them and empties the buffer. -/
theorem frameLoop_packets :
    ∀ (ps : List (List Char)) (last : Option (List ℚ)),
      (∀ p ∈ ps, '$' ∉ p ∧ ';' ∉ p) →
      frameLoop (mkPackets ps) last =
        (ps.foldl
          (fun a p =>
            match parseConvert p with
            | some v => some v
            | none => a) last, []) := by
  intro ps
  induction ps with
  | nil => intro last _; rfl
  | cons p ps ih =>
    intro last h
    have hp := h p (List.mem_cons_self p ps)
    have hrest : ∀ q ∈ ps, '$' ∉ q ∧ ';' ∉ q := fun q hq => h q (List.mem_cons_of_mem p hq)
    show frameLoop ('$' :: p ++ ';' :: mkPackets ps) last = _
    rw [frameLoop_extract p (mkPackets ps) last hp.1 hp.2, ih _ hrest]
    rfl

/-!
### Part 2: the dashboard estimators (src/dashboard.py)

`Dashboard.update` (lines 129-228) is floating-point trigonometry; it is
modelled here over `ℝ`, treating Python floats as exact reals.  The
configuration constants of lines 18-20 appear as definitions; the
damping flag and the deadzone threshold are passed as parameters of the
update function so that both configured values can be reasoned about.
-/

/-- Line 18: `ENABLE_POSITION_DAMPING = False`. -/
def ENABLE_POSITION_DAMPING : Bool := false

/-- Line 19: `ACCELERATION_DEADZONE = 50`. -/
noncomputable def ACCELERATION_DEADZONE : ℝ := 50

/-- Line 20: `G = 9.81`. -/
noncomputable def G : ℝ := 9.81

/-- Model of `math.atan2(y, x)` (C99 semantics on reals; the signed-zero
distinctions of floats do not exist on `ℝ`). -/
noncomputable def atan2 (y x : ℝ) : ℝ :=
  if 0 < x then Real.arctan (y / x)
  else if x < 0 then
    (if 0 ≤ y then Real.arctan (y / x) + Real.pi else Real.arctan (y / x) - Real.pi)
  else if 0 < y then Real.pi / 2
  else if y < 0 then -(Real.pi / 2)
  else 0

/-- Model of `math.degrees`. -/
noncomputable def degrees (x : ℝ) : ℝ := x * 180 / Real.pi

/-- Model of `math.radians`. -/
noncomputable def radians (x : ℝ) : ℝ := x * Real.pi / 180

/-- Line 159: `acc_magnitude_yz = math.sqrt(ay*ay + az*az)`. -/
noncomputable def acc_magnitude_yz (ay az : ℝ) : ℝ := Real.sqrt (ay * ay + az * az)

/-- Line 161: `pitch_rad = math.atan2(-ax, acc_magnitude_yz) if acc_magnitude_yz != 0 else 0`. -/
noncomputable def pitch_rad (ax ay az : ℝ) : ℝ :=
  if acc_magnitude_yz ay az ≠ 0 then atan2 (-ax) (acc_magnitude_yz ay az) else 0

/-- Line 162: `roll_rad = math.atan2(ay, az) if az != 0 else 0`. -/
noncomputable def roll_rad (ay az : ℝ) : ℝ :=
  if az ≠ 0 then atan2 ay az else 0

/-- Lines 181-183: world-frame X acceleration from the yaw-pitch-roll
rotation matrix applied to the body accelerometer vector. -/
noncomputable def ax_world (yr pr rr ax ay az : ℝ) : ℝ :=
  (Real.cos yr * Real.cos pr) * ax +
    (Real.cos yr * Real.sin pr * Real.sin rr - Real.sin yr * Real.cos rr) * ay +
    (Real.cos yr * Real.sin pr * Real.cos rr + Real.sin yr * Real.sin rr) * az

/-- Lines 186-188: world-frame Y acceleration. -/
noncomputable def ay_world (yr pr rr ax ay az : ℝ) : ℝ :=
  (Real.sin yr * Real.cos pr) * ax +
    (Real.sin yr * Real.sin pr * Real.sin rr + Real.cos yr * Real.cos rr) * ay +
    (Real.sin yr * Real.sin pr * Real.cos rr - Real.cos yr * Real.sin rr) * az

/-- Lines 191-193: world-frame Z acceleration. -/
noncomputable def az_world (yr pr rr ax ay az : ℝ) : ℝ :=
  (-Real.sin pr) * ax + (Real.cos pr * Real.sin rr) * ay + (Real.cos pr * Real.cos rr) * az

/-- A 9-element SI sample as consumed by `Dashboard.update`
(`new_data[0] .. new_data[8]`). -/
structure SampleR where
  ax : ℝ
  ay : ℝ
  az : ℝ
  gx : ℝ
  gy : ℝ
  gz : ℝ
  mx : ℝ
  my : ℝ
  mz : ℝ

/-- The mutable dashboard state of `Dashboard.__init__` (lines 31-36):
`current_yaw`, `last_update_time` and the physics state. -/
structure DashState where
  yaw : ℝ
  lastUpdateTime : ℝ
  vx : ℝ
  vy : ℝ
  vz : ℝ
  px : ℝ
  py : ℝ
  pz : ℝ

/-- The orientation triple applied to the 3D transform (lines 223-228). -/
structure OrientationDeg where
  pitch : ℝ
  roll : ℝ
  yaw : ℝ

/-- Lines 148-218 of `Dashboard.update`, for a delivered sample:
dt computation, pitch/roll from the accelerometer, yaw integration,
body-to-world rotation, gravity removal on world Z, deadzone, velocity
and position integration, optional damping.  Returns the new state and
the orientation used for the display transform. -/
noncomputable def dashUpdateSample (damping : Bool) (deadzone : ℝ)
    (st : DashState) (d : SampleR) (t : ℝ) : DashState × OrientationDeg :=
  let dt := t - st.lastUpdateTime
  let pitchR := pitch_rad d.ax d.ay d.az
  let rollR := roll_rad d.ay d.az
  let pitch := degrees pitchR
  let roll := degrees rollR
  let yaw := st.yaw + d.gz * dt
  let yawR := radians yaw
  let axw := ax_world yawR pitchR rollR d.ax d.ay d.az
  let ayw := ay_world yawR pitchR rollR d.ax d.ay d.az
  let azwLin := az_world yawR pitchR rollR d.ax d.ay d.az - G
  let axw2 := if |axw| < deadzone then 0 else axw
  let ayw2 := if |ayw| < deadzone then 0 else ayw
  let azw2 := if |azwLin| < deadzone then 0 else azwLin
  let vx1 := st.vx + axw2 * dt
  let vy1 := st.vy + ayw2 * dt
  let vz1 := st.vz + azw2 * dt
  let vx2 := if damping then vx1 * 0.95 else vx1
  let vy2 := if damping then vy1 * 0.95 else vy1
  let vz2 := if damping then vz1 * 0.95 else vz1
  ({ yaw := yaw, lastUpdateTime := t,
     vx := vx2, vy := vy2, vz := vz2,
     px := st.px + vx2 * dt, py := st.py + vy2 * dt, pz := st.pz + vz2 * dt },
   { pitch := pitch, roll := roll, yaw := yaw })

/-- One tick of `Dashboard.update` (lines 129-228) including the early
return of lines 133-134 when the sample source delivered no data. -/
noncomputable def dashUpdate (damping : Bool) (deadzone : ℝ)
    (st : DashState) (nd : Option SampleR) (t : ℝ) : DashState :=
  match nd with
  | none => st
  | some d => (dashUpdateSample damping deadzone st d t).1

/-! ### Claims about the packet framer -/

theorem frameLoop_nil (last : Option (List ℚ)) : frameLoop [] last = (last, []) := rfl

/-- Shared helper: the ASCII fragment of the UTF-8 decoder passes every
byte through unchanged, including NUL. -/
theorem utf8_ascii : ∀ (bs : List Nat), (∀ b ∈ bs, b < 128) →
    utf8DecodeIgnore bs = bs.map Char.ofNat := by
  intro bs
  induction bs with
  | nil => intro _; rfl
  | cons b bs ih =>
    intro h
    have hb : b < 128 := h b (List.mem_cons_self b bs)
    have hrest : ∀ x ∈ bs, x < 128 := fun x hx => h x (List.mem_cons_of_mem b hx)
    have hstep : utf8DecodeIgnoreF (bs.length + 1) (b :: bs) =
        Char.ofNat b :: utf8DecodeIgnoreF bs.length bs := by
      simp [utf8DecodeIgnoreF, hb]
    show utf8DecodeIgnoreF (bs.length + 1) (b :: bs) = _
    rw [hstep]
    show Char.ofNat b :: utf8DecodeIgnore bs = _
    rw [ih hrest]
    rfl

/-- Claim C1: a valid framed packet whose payload tokenizes into 9
(resp. 6) numeric tokens yields the sample with accelerometer fields
scaled by 9.80665/1000, gyroscope fields scaled by 1/1000, and
magnetometer fields passed through (resp. zero-filled). -/
theorem claim1 (p : List Char) (a1 a2 a3 g1 g2 g3 m1 m2 m3 : ℚ)
    (hd : '$' ∉ p) (hs : ';' ∉ p) :
    (floatList (splitTokens p) = some [a1, a2, a3, g1, g2, g3, m1, m2, m3] →
      processBuffer ('$' :: p ++ [';']) =
        (some [a1 * (9.80665 / 1000), a2 * (9.80665 / 1000), a3 * (9.80665 / 1000),
               g1 * (1 / 1000), g2 * (1 / 1000), g3 * (1 / 1000), m1, m2, m3], [])) ∧
    (floatList (splitTokens p) = some [a1, a2, a3, g1, g2, g3] →
      processBuffer ('$' :: p ++ [';']) =
        (some [a1 * (9.80665 / 1000), a2 * (9.80665 / 1000), a3 * (9.80665 / 1000),
               g1 * (1 / 1000), g2 * (1 / 1000), g3 * (1 / 1000), 0, 0, 0], [])) := by
  constructor
  · intro hf
    have hlen : (splitTokens p).length = 9 := by
      have := floatList_length hf
      simpa using this.symm
    have hpp : parsePacket p = some [a1, a2, a3, g1, g2, g3, m1, m2, m3] := by
      simp [parsePacket, hlen, hf]
    have hpc : parseConvert p =
        some (convertSample [a1, a2, a3, g1, g2, g3, m1, m2, m3]) := by
      simp [parseConvert, hpp]
    have hfull : frameLoop ('$' :: p ++ ';' :: []) none =
        (some (convertSample [a1, a2, a3, g1, g2, g3, m1, m2, m3]), []) := by
      rw [frameLoop_extract p [] none hd hs, hpc, frameLoop_nil]
    unfold processBuffer
    rw [hfull]
    norm_num [convertSample, MG_TO_MS2, MDPS_TO_DPS]
  · intro hf
    have hlen : (splitTokens p).length = 6 := by
      have := floatList_length hf
      simpa using this.symm
    have hpp : parsePacket p = some ([a1, a2, a3, g1, g2, g3] ++ [0, 0, 0]) := by
      simp [parsePacket, hlen, hf]
    have hpc : parseConvert p =
        some (convertSample ([a1, a2, a3, g1, g2, g3] ++ [0, 0, 0])) := by
      simp [parseConvert, hpp]
    have hfull : frameLoop ('$' :: p ++ ';' :: []) none =
        (some (convertSample ([a1, a2, a3, g1, g2, g3] ++ [0, 0, 0])), []) := by
      rw [frameLoop_extract p [] none hd hs, hpc, frameLoop_nil]
    unfold processBuffer
    rw [hfull]
    norm_num [convertSample, MG_TO_MS2, MDPS_TO_DPS]

unseal Rat.mul Rat.add Rat.inv Rat.sub Rat.ofScientific in
theorem claim1_witness :
    processBuffer
        ('$' :: ['1', ' ', '2', ' ', '3', ' ', '4', ' ', '5', ' ', '6', ' ', '7', ' ', '8',
                 ' ', '9'] ++ [';']) =
      (some [1 * (9.80665 / 1000 : ℚ), 2 * (9.80665 / 1000), 3 * (9.80665 / 1000),
             4 * (1 / 1000 : ℚ), 5 * (1 / 1000), 6 * (1 / 1000), 7, 8, 9], []) :=
  (claim1 _ 1 2 3 4 5 6 7 8 9 (by decide) (by decide)).1 (by decide)

/-- Claim C2: with several complete valid packets in the buffer at once,
all of them are consumed (the buffer ends empty) and only the sample of
the last one is returned. -/
theorem claim2 (ps : List (List Char)) (q : List Char) (v : List ℚ)
    (hd : ∀ p ∈ ps ++ [q], '$' ∉ p ∧ ';' ∉ p)
    (hvalid : ∀ p ∈ ps, (parseConvert p).isSome = true)
    (hq : parseConvert q = some v)
    (hlen : 1 ≤ ps.length) :
    processBuffer (mkPackets (ps ++ [q])) = (some v, []) := by
  have hrun := frameLoop_packets (ps ++ [q]) none hd
  have hfold :
      (ps ++ [q]).foldl
        (fun a p =>
          match parseConvert p with
          | some w => some w
          | none => a) none = some v := by
    rw [List.foldl_append]
    simp [hq]
  rw [hfold] at hrun
  unfold processBuffer
  rw [hrun]
  norm_num

unseal Rat.mul Rat.add Rat.inv Rat.sub Rat.ofScientific in
theorem claim2_witness :
    processBuffer
        (mkPackets ([['1', ' ', '1', ' ', '1', ' ', '1', ' ', '1', ' ', '1']] ++
          [['2', ' ', '0', ' ', '0', ' ', '0', ' ', '0', ' ', '0']])) =
      (some [2 * (9.80665 / 1000 : ℚ), 0, 0, 0, 0, 0, 0, 0, 0], []) :=
  claim2 _ _ _ (by decide) (by decide) (by decide) (by decide)

/-- Claim C3 (amended): when an end marker precedes the first start
marker and a start marker exists later in the buffer, the loop discards
the prefix up to and including that end marker and retries on the
remainder; the retained buffer afterwards holds at most 1000 characters.
(The original claim also covered buffers with no start marker at all;
see the counterexample.) -/
theorem claim3 (pre rest : List Char) (last : Option (List ℚ))
    (h1 : ';' ∉ pre) (h2 : '$' ∉ pre) (h3 : '$' ∈ rest) :
    frameLoop (pre ++ ';' :: rest) last = frameLoop rest last ∧
    (processBuffer (pre ++ ';' :: rest)).2.length ≤ 1000 :=
  ⟨frameLoop_resync pre rest last h1 h2 h3, processBuffer_len _⟩

theorem claim3_witness :
    frameLoop (['x'] ++ ';' :: ['$']) none = frameLoop ['$'] none ∧
    (processBuffer (['x'] ++ ';' :: ['$'])).2.length ≤ 1000 :=
  claim3 ['x'] ['$'] none (by decide) (by decide) (by decide)

/-- Claim C3 counterexample: with a buffer holding an orphan end marker
and no start marker at all, the call does NOT discard the prefix through
the end marker — the buffer is retained unchanged (the claimed behavior
would leave the buffer as `['a']`). -/
theorem claim3_counterexample :
    processBuffer [';', 'a'] = (none, [';', 'a']) ∧ ';' ∈ (processBuffer [';', 'a']).2 := by
  decide

/-- Claim C4: the retained buffer never exceeds 1000 characters after a
call, and feeding more than 1000 characters holding no delimiter clears
the buffer entirely and returns no sample. -/
theorem claim4 :
    (∀ buf : List Char, (processBuffer buf).2.length ≤ 1000) ∧
    (∀ input : List Char, '$' ∉ input → ';' ∉ input → 1000 < input.length →
      processBuffer input = (none, [])) := by
  refine ⟨processBuffer_len, ?_⟩
  intro input h1 h2 h3
  have hrun : frameLoop input none = (none, input) :=
    frameLoop_nopair (Or.inl (findChar_none h1))
  unfold processBuffer
  rw [hrun]
  simp [h3]

theorem claim4_witness :
    ('$' ∉ List.replicate 1001 'a' ∧ ';' ∉ List.replicate 1001 'a' ∧
      1000 < (List.replicate 1001 'a').length) ∧
    processBuffer (List.replicate 1001 'a') = (none, []) :=
  ⟨⟨by simp only [List.mem_replicate]; decide,
    by simp only [List.mem_replicate]; decide,
    by simp only [List.length_replicate]; omega⟩,
    claim4.2 _ (by simp only [List.mem_replicate]; decide)
      (by simp only [List.mem_replicate]; decide)
      (by simp only [List.length_replicate]; omega)⟩

/-- Claim C5: a delimited packet whose payload has a token count other
than 6 or 9, or a token the numeric parser rejects, is silently skipped
and the loop continues on the remaining buffer with the accumulator
unchanged; a call seeing only such a packet returns no sample. -/
theorem claim5 (p rest : List Char) (last : Option (List ℚ))
    (h1 : '$' ∉ p) (h2 : ';' ∉ p)
    (h3 : ((splitTokens p).length ≠ 6 ∧ (splitTokens p).length ≠ 9) ∨
      floatList (splitTokens p) = none) :
    frameLoop ('$' :: p ++ ';' :: rest) last = frameLoop rest last ∧
    processBuffer ('$' :: p ++ [';']) = (none, []) := by
  have hpp : parsePacket p = none := by
    rcases h3 with ⟨h6, h9⟩ | hfl
    · simp [parsePacket, h6, h9]
    · by_cases hl6 : (splitTokens p).length = 6
      · simp [parsePacket, hl6, hfl]
      · by_cases hl9 : (splitTokens p).length = 9
        · simp [parsePacket, hl6, hl9, hfl]
        · simp [parsePacket, hl6, hl9]
  have hpc : parseConvert p = none := by simp [parseConvert, hpp]
  constructor
  · rw [frameLoop_extract p rest last h1 h2, hpc]
  · have hfull : frameLoop ('$' :: p ++ ';' :: []) none = (none, []) := by
      rw [frameLoop_extract p [] none h1 h2, hpc, frameLoop_nil]
    unfold processBuffer
    rw [hfull]
    norm_num

theorem claim5_witness :
    frameLoop ('$' :: ['1'] ++ ';' :: ['x']) none = frameLoop ['x'] none ∧
    processBuffer ('$' :: ['1'] ++ [';']) = (none, []) :=
  claim5 ['1'] ['x'] none (by decide) (by decide) (Or.inl (by decide))

/-- Claim C6 (amended): the byte decode never fails — undecodable bytes
are dropped (ignored), not replaced — and NUL bytes are NOT stripped:
ASCII bytes, NUL included, pass through to the buffer unchanged. -/
theorem claim6 (bs : List Nat) (h : ∀ b ∈ bs, b < 128) :
    utf8DecodeIgnore bs = bs.map Char.ofNat ∧ utf8DecodeIgnore [255] = [] :=
  ⟨utf8_ascii bs h, by decide⟩

theorem claim6_witness :
    utf8DecodeIgnore [0, 72, 105] = [0, 72, 105].map Char.ofNat ∧
    utf8DecodeIgnore [255] = [] :=
  claim6 [0, 72, 105] (by decide)

/-- Claim C6 counterexample: decoding the single byte 0x00 appends the
NUL character to the buffer, so the appended text can contain NUL. -/
theorem claim6_counterexample :
    utf8DecodeIgnore [0] = ['\x00'] ∧ '\x00' ∈ utf8DecodeIgnore [0] := by
  decide

/-! ### Claims about the dashboard estimators -/

/-- Claim C7: one orientation update computes
pitch = degrees(atan2(-ax, sqrt(ay² + az²))), 0 when the square root is
zero; roll = degrees(atan2(ay, az)), 0 when az = 0; and the stored yaw
is the previous yaw plus gz·dt with no wraparound or magnetometer
correction. -/
theorem claim7 (damping : Bool) (deadzone : ℝ) (st : DashState) (d : SampleR) (t : ℝ) :
    (Real.sqrt (d.ay * d.ay + d.az * d.az) ≠ 0 →
      (dashUpdateSample damping deadzone st d t).2.pitch =
        degrees (atan2 (-d.ax) (Real.sqrt (d.ay * d.ay + d.az * d.az)))) ∧
    (Real.sqrt (d.ay * d.ay + d.az * d.az) = 0 →
      (dashUpdateSample damping deadzone st d t).2.pitch = 0) ∧
    (d.az ≠ 0 →
      (dashUpdateSample damping deadzone st d t).2.roll = degrees (atan2 d.ay d.az)) ∧
    (d.az = 0 → (dashUpdateSample damping deadzone st d t).2.roll = 0) ∧
    (dashUpdateSample damping deadzone st d t).2.yaw =
      st.yaw + d.gz * (t - st.lastUpdateTime) ∧
    (dashUpdateSample damping deadzone st d t).1.yaw =
      st.yaw + d.gz * (t - st.lastUpdateTime) := by
  refine ⟨?_, ?_, ?_, ?_, ?_, ?_⟩
  · intro h
    simp [dashUpdateSample, pitch_rad, acc_magnitude_yz, h]
  · intro h
    simp [dashUpdateSample, pitch_rad, acc_magnitude_yz, h, degrees]
  · intro h
    simp [dashUpdateSample, roll_rad, h]
  · intro h
    simp [dashUpdateSample, roll_rad, h, degrees]
  · simp [dashUpdateSample]
  · simp [dashUpdateSample]

theorem claim7_witness :
    (dashUpdateSample false 50 ⟨0, 0, 0, 0, 0, 0, 0, 0⟩ ⟨0, 0, 0, 0, 0, 0, 0, 0, 0⟩ 1).2.pitch
        = 0 ∧
    (dashUpdateSample false 50 ⟨0, 0, 0, 0, 0, 0, 0, 0⟩ ⟨0, 0, 0, 0, 0, 0, 0, 0, 0⟩ 1).2.roll
        = 0 ∧
    (dashUpdateSample false 50 ⟨0, 0, 0, 0, 0, 0, 0, 0⟩ ⟨0, 0, 1, 0, 0, 0, 0, 0, 0⟩ 1).2.roll
        = degrees (atan2 (0 : ℝ) 1) :=
  ⟨(claim7 false 50 ⟨0, 0, 0, 0, 0, 0, 0, 0⟩ ⟨0, 0, 0, 0, 0, 0, 0, 0, 0⟩ 1).2.1
      (by show Real.sqrt (0 * 0 + 0 * 0) = 0; simp),
   (claim7 false 50 ⟨0, 0, 0, 0, 0, 0, 0, 0⟩ ⟨0, 0, 0, 0, 0, 0, 0, 0, 0⟩ 1).2.2.2.1 rfl,
   (claim7 false 50 ⟨0, 0, 0, 0, 0, 0, 0, 0⟩ ⟨0, 0, 1, 0, 0, 0, 0, 0, 0⟩ 1).2.2.1
      (by norm_num)⟩

/-- Claim C8: after rotation to world frame and gravity removal on Z,
every world axis below the deadzone threshold in magnitude is zeroed, so
when all three are below the threshold (damping disabled, as configured)
the velocity state is unchanged by the step. -/
theorem claim8 (deadzone : ℝ) (st : DashState) (d : SampleR) (t : ℝ)
    (h1 : |ax_world (radians (st.yaw + d.gz * (t - st.lastUpdateTime)))
        (pitch_rad d.ax d.ay d.az) (roll_rad d.ay d.az) d.ax d.ay d.az| < deadzone)
    (h2 : |ay_world (radians (st.yaw + d.gz * (t - st.lastUpdateTime)))
        (pitch_rad d.ax d.ay d.az) (roll_rad d.ay d.az) d.ax d.ay d.az| < deadzone)
    (h3 : |az_world (radians (st.yaw + d.gz * (t - st.lastUpdateTime)))
        (pitch_rad d.ax d.ay d.az) (roll_rad d.ay d.az) d.ax d.ay d.az - G| < deadzone) :
    (dashUpdateSample false deadzone st d t).1.vx = st.vx ∧
    (dashUpdateSample false deadzone st d t).1.vy = st.vy ∧
    (dashUpdateSample false deadzone st d t).1.vz = st.vz := by
  refine ⟨?_, ?_, ?_⟩ <;>
    simp [dashUpdateSample, if_pos h1, if_pos h2, if_pos h3]

theorem claim8_witness :
    (dashUpdateSample false 50 ⟨0, 0, 0, 0, 0, 0, 0, 0⟩ ⟨0, 0, 0, 0, 0, 0, 0, 0, 0⟩ 1).1.vx
        = 0 ∧
    (dashUpdateSample false 50 ⟨0, 0, 0, 0, 0, 0, 0, 0⟩ ⟨0, 0, 0, 0, 0, 0, 0, 0, 0⟩ 1).1.vy
        = 0 ∧
    (dashUpdateSample false 50 ⟨0, 0, 0, 0, 0, 0, 0, 0⟩ ⟨0, 0, 0, 0, 0, 0, 0, 0, 0⟩ 1).1.vz
        = 0 :=
  claim8 50 ⟨0, 0, 0, 0, 0, 0, 0, 0⟩ ⟨0, 0, 0, 0, 0, 0, 0, 0, 0⟩ 1
    (by norm_num [ax_world])
    (by norm_num [ay_world])
    (by rw [show az_world (radians ((0 : ℝ) + 0 * (1 - 0))) (pitch_rad 0 0 0) (roll_rad 0 0)
          0 0 0 = 0 from by norm_num [az_world], zero_sub, abs_neg, G,
          abs_of_nonneg (by norm_num : (0 : ℝ) ≤ 9.81)]
        norm_num)

/-- Claim C9: with damping enabled, each step multiplies all three
velocity components by 0.95 after acceleration is integrated and before
velocity is integrated into position; with all three world axes zeroed
by the deadzone and a nonzero velocity, the velocity magnitude strictly
decreases. -/
theorem claim9 (deadzone : ℝ) (st : DashState) (d : SampleR) (t : ℝ)
    (h1 : |ax_world (radians (st.yaw + d.gz * (t - st.lastUpdateTime)))
        (pitch_rad d.ax d.ay d.az) (roll_rad d.ay d.az) d.ax d.ay d.az| < deadzone)
    (h2 : |ay_world (radians (st.yaw + d.gz * (t - st.lastUpdateTime)))
        (pitch_rad d.ax d.ay d.az) (roll_rad d.ay d.az) d.ax d.ay d.az| < deadzone)
    (h3 : |az_world (radians (st.yaw + d.gz * (t - st.lastUpdateTime)))
        (pitch_rad d.ax d.ay d.az) (roll_rad d.ay d.az) d.ax d.ay d.az - G| < deadzone) :
    (dashUpdateSample true deadzone st d t).1.vx = st.vx * 0.95 ∧
    (dashUpdateSample true deadzone st d t).1.vy = st.vy * 0.95 ∧
    (dashUpdateSample true deadzone st d t).1.vz = st.vz * 0.95 ∧
    (dashUpdateSample true deadzone st d t).1.px =
      st.px + st.vx * 0.95 * (t - st.lastUpdateTime) ∧
    (dashUpdateSample true deadzone st d t).1.py =
      st.py + st.vy * 0.95 * (t - st.lastUpdateTime) ∧
    (dashUpdateSample true deadzone st d t).1.pz =
      st.pz + st.vz * 0.95 * (t - st.lastUpdateTime) ∧
    (¬(st.vx = 0 ∧ st.vy = 0 ∧ st.vz = 0) →
      Real.sqrt ((dashUpdateSample true deadzone st d t).1.vx ^ 2 +
          (dashUpdateSample true deadzone st d t).1.vy ^ 2 +
          (dashUpdateSample true deadzone st d t).1.vz ^ 2) <
        Real.sqrt (st.vx ^ 2 + st.vy ^ 2 + st.vz ^ 2)) := by
  have hvx : (dashUpdateSample true deadzone st d t).1.vx = st.vx * 0.95 := by
    simp [dashUpdateSample, if_pos h1, if_pos h2, if_pos h3]
  have hvy : (dashUpdateSample true deadzone st d t).1.vy = st.vy * 0.95 := by
    simp [dashUpdateSample, if_pos h1, if_pos h2, if_pos h3]
  have hvz : (dashUpdateSample true deadzone st d t).1.vz = st.vz * 0.95 := by
    simp [dashUpdateSample, if_pos h1, if_pos h2, if_pos h3]
  refine ⟨hvx, hvy, hvz, ?_, ?_, ?_, ?_⟩
  · simp [dashUpdateSample, if_pos h1, if_pos h2, if_pos h3]
  · simp [dashUpdateSample, if_pos h1, if_pos h2, if_pos h3]
  · simp [dashUpdateSample, if_pos h1, if_pos h2, if_pos h3]
  · intro hne
    rw [hvx, hvy, hvz]
    have hS : 0 < st.vx ^ 2 + st.vy ^ 2 + st.vz ^ 2 := by
      by_contra hc
      push_neg at hc
      have hx2 := sq_nonneg st.vx
      have hy2 := sq_nonneg st.vy
      have hz2 := sq_nonneg st.vz
      have hx : st.vx ^ 2 = 0 := by nlinarith
      have hy : st.vy ^ 2 = 0 := by nlinarith
      have hz : st.vz ^ 2 = 0 := by nlinarith
      exact hne ⟨pow_eq_zero_iff (by norm_num) |>.mp hx,
        pow_eq_zero_iff (by norm_num) |>.mp hy,
        pow_eq_zero_iff (by norm_num) |>.mp hz⟩
    have hrw : (st.vx * 0.95) ^ 2 + (st.vy * 0.95) ^ 2 + (st.vz * 0.95) ^ 2 =
        (st.vx ^ 2 + st.vy ^ 2 + st.vz ^ 2) * ((0.95 : ℝ) ^ 2) := by ring
    rw [hrw, Real.sqrt_mul (le_of_lt hS),
      Real.sqrt_sq (by norm_num : (0 : ℝ) ≤ (0.95 : ℝ))]
    have hpos : 0 < Real.sqrt (st.vx ^ 2 + st.vy ^ 2 + st.vz ^ 2) :=
      Real.sqrt_pos.mpr hS
    nlinarith [hpos]

theorem claim9_witness :
    (dashUpdateSample true 50 ⟨0, 0, 1, 0, 0, 0, 0, 0⟩ ⟨0, 0, 0, 0, 0, 0, 0, 0, 0⟩ 1).1.vx
        = 1 * 0.95 ∧
    Real.sqrt
        ((dashUpdateSample true 50 ⟨0, 0, 1, 0, 0, 0, 0, 0⟩ ⟨0, 0, 0, 0, 0, 0, 0, 0, 0⟩ 1).1.vx
            ^ 2 +
          (dashUpdateSample true 50 ⟨0, 0, 1, 0, 0, 0, 0, 0⟩ ⟨0, 0, 0, 0, 0, 0, 0, 0, 0⟩ 1).1.vy
            ^ 2 +
          (dashUpdateSample true 50 ⟨0, 0, 1, 0, 0, 0, 0, 0⟩ ⟨0, 0, 0, 0, 0, 0, 0, 0, 0⟩ 1).1.vz
            ^ 2) <
      Real.sqrt ((1 : ℝ) ^ 2 + 0 ^ 2 + 0 ^ 2) :=
  have h1 : |ax_world (radians ((0 : ℝ) + 0 * (1 - 0))) (pitch_rad 0 0 0) (roll_rad 0 0)
      0 0 0| < 50 := by norm_num [ax_world]
  have h2 : |ay_world (radians ((0 : ℝ) + 0 * (1 - 0))) (pitch_rad 0 0 0) (roll_rad 0 0)
      0 0 0| < 50 := by norm_num [ay_world]
  have h3 : |az_world (radians ((0 : ℝ) + 0 * (1 - 0))) (pitch_rad 0 0 0) (roll_rad 0 0)
      0 0 0 - G| < 50 := by
    rw [show az_world (radians ((0 : ℝ) + 0 * (1 - 0))) (pitch_rad 0 0 0) (roll_rad 0 0)
        0 0 0 = 0 from by norm_num [az_world], zero_sub, abs_neg, G,
      abs_of_nonneg (by norm_num : (0 : ℝ) ≤ 9.81)]
    norm_num
  have H := claim9 50 ⟨0, 0, 1, 0, 0, 0, 0, 0⟩ ⟨0, 0, 0, 0, 0, 0, 0, 0, 0⟩ 1 h1 h2 h3
  ⟨H.1, H.2.2.2.2.2.2 (by norm_num)⟩

/-- Claim C10: a tick in which the sample source returns no data leaves
the whole dashboard state unchanged — including the last-update
timestamp — so the dt of the next data-bearing tick spans the entire
gap: stepping after a no-data tick equals stepping the original state. -/
theorem claim10 (damping : Bool) (deadzone : ℝ) (st : DashState) (t1 t2 : ℝ) (d : SampleR) :
    dashUpdate damping deadzone st none t1 = st ∧
    dashUpdate damping deadzone (dashUpdate damping deadzone st none t1) (some d) t2 =
      dashUpdate damping deadzone st (some d) t2 :=
  ⟨rfl, rfl⟩
